import Mathlib

/-!
Shallow embedding of the reheat ORM's lifecycle sequencer (Model#save,
Model#destroy) and its Connection pool wrapper, translated from the
repository sources.  Model#save is translated from
src/lib/model/prototype/save.js.  The Connection constructor, _configure
and Connection.prototype.run are translated from src/unnamed/part_000.
Model#destroy is not present under src (only its unit tests are, in
src/unnamed/part_003); it is modelled from the spec and pinned to those
tests where the tests are more specific than the spec.
-/

namespace Reheat

/-- JavaScript runtime values as stored in attribute mappings and
configuration objects.  `vtime` stands for a ReQL server-time value
produced by `r.now()`; its argument is the server clock reading that the
database substitutes when the query executes. -/
inductive Val where
  | vnull
  | vbool (b : Bool)
  | vnum (n : Int)
  | vstr (s : String)
  | vtime (t : Int)
  | vfn
  | vobj (fields : List (String × Val))
deriving BEq, Repr

/-- A JavaScript object: an ordered association list from key to value. -/
abbrev Attrs := List (String × Val)

/-- Property read `obj[k]`: the first binding of `k`, if any. -/
def aget : Attrs → String → Option Val
  | [], _ => none
  | (k₁, v₁) :: rest, k => if k₁ == k then some v₁ else aget rest k

/-- Property write `obj[k] = v`: overwrite the first binding of `k` in
place, else append a new binding. -/
def aset : Attrs → String → Val → Attrs
  | [], k, v => [(k, v)]
  | (k₁, v₁) :: rest, k, v =>
    if k₁ == k then (k, v) :: rest else (k₁, v₁) :: aset rest k v

/-- Property removal `delete obj[k]` (utils.unset). -/
def aremove : Attrs → String → Attrs
  | [], _ => []
  | (k₁, v₁) :: rest, k =>
    if k₁ == k then aremove rest k else (k₁, v₁) :: aremove rest k

/-- The keys of an object, in order. -/
def akeys (a : Attrs) : List String := a.map (fun p => p.1)

/-- Whether an object carries a binding for `k`. -/
def hasKey : Attrs → String → Bool
  | [], _ => false
  | (k₁, _) :: rest, k => k₁ == k || hasKey rest k

/-- JavaScript truthiness of a value. -/
def truthyV : Val → Bool
  | Val.vnull => false
  | Val.vbool b => b
  | Val.vnum n => n != 0
  | Val.vstr s => s != ""
  | Val.vtime _ => true
  | Val.vfn => true
  | Val.vobj _ => true

/-- utils.isNumber. -/
def isNumberV : Val → Bool
  | Val.vnum _ => true
  | _ => false

/-- utils.isString. -/
def isStringV : Val → Bool
  | Val.vstr _ => true
  | _ => false

/-- utils.isBoolean. -/
def isBoolV : Val → Bool
  | Val.vbool _ => true
  | _ => false

/-- utils.isFunction on a value. -/
def isFnV : Val → Bool
  | Val.vfn => true
  | _ => false

/-- Whether a value is a plain object. -/
def isObjV : Val → Bool
  | Val.vobj _ => true
  | _ => false

/-- utils.deepMixIn(target, source): fold the bindings of `source` into
`target` in order, merging object values recursively (two plain objects
merge key by key; any other source value replaces the target value). -/
def mixObj : Attrs → Attrs → Attrs
  | t, [] => t
  | t, (k, v) :: rest =>
    mixObj
      (aset t k (match aget t k with
        | some tv => mergeVal tv v
        | none => v))
      rest
where mergeVal : Val → Val → Val
  | Val.vobj tf, Val.vobj sf => Val.vobj (mixObj tf sf)
  | _, s => s

/-- Well-formedness of an object: unique keys, recursively (true of
every JavaScript object). -/
def wfAttrs : Attrs → Bool
  | [] => true
  | (k, v) :: rest => !(hasKey rest k) && wfV v && wfAttrs rest
where wfV : Val → Bool
  | Val.vobj f => wfAttrs f
  | _ => true


/-- The shape of the `options.context` field of a call: absent, an
object, or present with a non-object (truthy) value. -/
inductive Ctx where
  | noCtx
  | objCtx
  | badCtx

/-- A JavaScript argument as passed to save/destroy/run: `missing` is
`undefined`; `fnArg` is a function; `objArg` is a plain options object
carrying the shape of its `context` field; `otherArg t s` is any other
value, with its truthiness `t` and the name of its type `s`. -/
inductive Arg where
  | missing
  | fnArg
  | objArg (c : Ctx)
  | otherArg (t : Bool) (tname : String)

/-- utils.isFunction on an argument. -/
def isFnArg : Arg → Bool
  | Arg.fnArg => true
  | _ => false

/-- utils.isObject on an argument. -/
def isObjArg : Arg → Bool
  | Arg.objArg _ => true
  | _ => false

/-- JavaScript truthiness of an argument. -/
def truthyArg : Arg → Bool
  | Arg.missing => false
  | Arg.fnArg => true
  | Arg.objArg _ => true
  | Arg.otherArg t _ => t

/-- The source's `options.context && !utils.isObject(options.context)`
guard: a truthy non-object `context` field. -/
def badContext : Arg → Bool
  | Arg.objArg Ctx.badCtx => true
  | _ => false

/-- The errors the library reports: `IllegalArgumentError` for a
malformed call shape, and `UnhandledError` wrapping either a string
cause or another error object. -/
inductive JsError where
  | illegalArgument (msg : String)
  | unhandledOfString (s : String)
  | unhandledOfError (e : JsError)
deriving BEq, Repr

/-- JavaScript `a || b` on an optional string (an empty string is falsy
and also falls through to the default). -/
def jsOr (a : Option String) (d : String) : String :=
  match a with
  | some s => if s == "" then d else s
  | none => d

/-- The write-result object a ReQL write returns: the engine error
count, the first reported error if any, and the new/old row values
requested with return_vals. -/
structure Cursor where
  errors : Nat
  first_error : Option String
  new_val : Attrs
  old_val : Attrs

/-- A ReQL write query as constructed by save/destroy: an insert of a
document, an update-by-primary-key with an update document, or a
delete-by-primary-key. -/
inductive Query where
  | insert (table : String) (doc : Attrs)
  | update (table : String) (key : Option Val) (doc : Attrs)
  | delete (table : String) (key : Option Val)
deriving Repr

/-- The document a write query carries (none for a delete). -/
def Query.doc : Query → Option Attrs
  | Query.insert _ d => some d
  | Query.update _ _ d => some d
  | Query.delete _ _ => none

/-- A model instance: its attribute mapping, the metadata of the last
persistence operation, and the snapshot field written by destroy. -/
structure Instance where
  attributes : Attrs
  meta : Option Cursor
  previousAttributes : Option Attrs

/-- Class-level model configuration. -/
structure ModelCfg where
  tableName : String
  timestamps : Bool
  softDelete : Bool
  idAttribute : String

/-- Modelled from the spec: Model#isNew (its implementation is not under
src; src/lib only carries save.js).  Spec section 8: an instance is new
iff its primary-key attribute is absent or null. -/
def isNewAttrs (idAttr : String) (a : Attrs) : Bool :=
  match aget a idAttr with
  | none => true
  | some Val.vnull => true
  | some _ => false

/-- The behaviour of the environment during one save/destroy call:
either an exception is thrown while the query is being constructed,
or Connection#run calls back with an error, or it calls back with a
write-result cursor. -/
inductive Env where
  | throws (msg : String)
  | runFails (e : JsError)
  | runSucceeds (c : Cursor)

/-- How one save/destroy call terminates: a synchronously thrown error,
or an invocation of the completion callback with (err, instance, meta). -/
inductive Outcome where
  | threw (e : JsError)
  | callback (err : Option JsError) (inst : Option Instance) (meta : Option Cursor)

/-- The observable result of one save/destroy call: how it terminated,
the final state of the instance, and the query passed to
Connection#run, if the connection was consulted at all. -/
structure OpResult where
  outcome : Outcome
  inst : Instance
  ranQuery : Option Query

/-- The `if (utils.isFunction(options)) cb = options` shift of save.js
lines 46-49: the effective callback. -/
def shiftedCb (options cb : Arg) : Arg :=
  if isFnArg options then options else cb

/-- The same shift, on the options side: a function first argument is
replaced by the empty options object. -/
def shiftedOpts (options : Arg) : Arg :=
  if isFnArg options then Arg.objArg Ctx.noCtx else options

/-- Whether a save/destroy call shape passes all three argument checks
of save.js lines 46-56. -/
def accepted (options cb : Arg) : Bool :=
  isFnArg (shiftedCb options cb) && isObjArg (shiftedOpts options)
    && !(badContext (shiftedOpts options))

/-- save.js lines 62-68: timestamp stamping before the write.  With
timestamps enabled, a new instance gets `created` and `deleted` set and
every instance gets `updated` set; both stamps are the same `r.now()`
server time. -/
def stampForSave (m : ModelCfg) (a : Attrs) (now : Int) : Attrs :=
  if m.timestamps then
    let a₁ := if isNewAttrs m.idAttribute a then
                aset (aset a "created" (Val.vtime now)) "deleted" Val.vnull
              else a
    aset a₁ "updated" (Val.vtime now)
  else a

/-- save.js lines 70-74: insert the full attribute mapping when new,
else update-by-primary-key with the full attribute mapping. -/
def buildSaveQuery (m : ModelCfg) (a : Attrs) : Query :=
  if isNewAttrs m.idAttribute a then Query.insert m.tableName a
  else Query.update m.tableName (aget a m.idAttribute) a

/-- Message of the thrown cb-shape error of save. -/
def saveCbMsg : String := "Model#save([options], cb): cb: Must be a function!"

/-- Message of the options-shape error of save. -/
def saveOptsMsg : String := "Model#save([options], cb): options: Must be an object!"

/-- Message of the context-shape error of save. -/
def saveCtxMsg : String := "Model#save([options], cb): options.context: Must be an object!"

/-- Model#save, translated from src/lib/model/prototype/save.js.
Argument checks (lines 46-56), timestamp stamping (62-68), query
construction (70-74), the run of the query through the connection and
the waterfall completion (76-109).  Note the success path merges
`cursor.new_val` into the attributes and passes the cursor to the
callback as `meta`, but assigns nothing to the instance's `meta`
field. -/
def save (m : ModelCfg) (inst : Instance) (options cb : Arg) (now : Int)
    (env : Env) : OpResult :=
  if ¬ isFnArg (shiftedCb options cb) then
    ⟨Outcome.threw (JsError.illegalArgument saveCbMsg), inst, none⟩
  else if ¬ isObjArg (shiftedOpts options) then
    ⟨Outcome.callback (some (JsError.illegalArgument saveOptsMsg)) none none,
     inst, none⟩
  else if badContext (shiftedOpts options) then
    ⟨Outcome.callback (some (JsError.illegalArgument saveCtxMsg)) none none,
     inst, none⟩
  else
    match env with
    | Env.throws msg =>
      ⟨Outcome.callback (some (JsError.unhandledOfString msg)) none none,
       inst, none⟩
    | Env.runFails e =>
      let a := stampForSave m inst.attributes now
      ⟨Outcome.callback (some (JsError.unhandledOfError e)) none none,
       ⟨a, inst.meta, inst.previousAttributes⟩, some (buildSaveQuery m a)⟩
    | Env.runSucceeds c =>
      let a := stampForSave m inst.attributes now
      if c.errors ≠ 0 then
        ⟨Outcome.callback
           (some (JsError.unhandledOfString (jsOr c.first_error "insert failed")))
           none none,
         ⟨a, inst.meta, inst.previousAttributes⟩, some (buildSaveQuery m a)⟩
      else
        let inst₂ : Instance :=
          ⟨mixObj a c.new_val, inst.meta, inst.previousAttributes⟩
        ⟨Outcome.callback none (some inst₂) (some c), inst₂,
         some (buildSaveQuery m a)⟩

/-- Message of the thrown cb-shape error of destroy. -/
def destroyCbMsg : String := "Model#destroy([options], cb): cb: Must be a function!"

/-- Message of the options-shape error of destroy. -/
def destroyOptsMsg : String := "Model#destroy([options], cb): options: Must be an object!"

/-- Message of the context-shape error of destroy. -/
def destroyCtxMsg : String := "Model#destroy([options], cb): options.context: Must be an object!"

/-- Modelled from the spec: the update document of a soft delete.  The
destroy implementation is missing from src; spec section 4.2 says the
soft-delete write is an update-by-primary-key setting `deleted` to the
current server time and also `updated` when timestamps are enabled.
Consistent with destroyTest.softDelete and
destroyTest.softDeleteTimestamps in src/unnamed/part_003. -/
def destroyUpdateDoc (m : ModelCfg) (now : Int) : Attrs :=
  let d : Attrs := [("deleted", Val.vtime now)]
  if m.timestamps then aset d "updated" (Val.vtime now) else d

/-- Modelled from the spec: the query destroy issues, spec section 4.2.
Soft delete sends the update document by primary key; otherwise a
physical delete-by-primary-key is issued. -/
def buildDestroyQuery (m : ModelCfg) (a : Attrs) (now : Int) : Query :=
  if m.softDelete then
    Query.update m.tableName (aget a m.idAttribute) (destroyUpdateDoc m now)
  else Query.delete m.tableName (aget a m.idAttribute)

/-- Modelled from the spec: Model#destroy.  Its implementation
(lib/model/prototype/destroy.js) is not under src; only its unit tests
are (src/unnamed/part_003).  Reconstructed from spec section 4.2 with
the argument-shape semantics of section 4.1, and pinned to the four
unit tests where they are more specific than the spec: on success the
tests fix `previousAttributes` to the old row value returned by the
engine, fix `meta` to the raw cursor, and for a physical delete fix the
attribute mapping to the old mapping with only the primary-key
attribute removed (destroyTest.normal expects attributes
left as the name binding alone, not an empty mapping). -/
def destroy (m : ModelCfg) (inst : Instance) (options cb : Arg) (now : Int)
    (env : Env) : OpResult :=
  if ¬ isFnArg (shiftedCb options cb) then
    ⟨Outcome.threw (JsError.illegalArgument destroyCbMsg), inst, none⟩
  else if ¬ isObjArg (shiftedOpts options) then
    ⟨Outcome.callback (some (JsError.illegalArgument destroyOptsMsg)) none none,
     inst, none⟩
  else if badContext (shiftedOpts options) then
    ⟨Outcome.callback (some (JsError.illegalArgument destroyCtxMsg)) none none,
     inst, none⟩
  else if isNewAttrs m.idAttribute inst.attributes then
    ⟨Outcome.callback none (some inst) none, inst, none⟩
  else
    match env with
    | Env.throws msg =>
      ⟨Outcome.callback (some (JsError.unhandledOfString msg)) none none,
       inst, none⟩
    | Env.runFails e =>
      ⟨Outcome.callback (some (JsError.unhandledOfError e)) none none,
       inst, some (buildDestroyQuery m inst.attributes now)⟩
    | Env.runSucceeds c =>
      if c.errors ≠ 0 then
        ⟨Outcome.callback
           (some (JsError.unhandledOfString (jsOr c.first_error "delete failed")))
           none none,
         inst, some (buildDestroyQuery m inst.attributes now)⟩
      else
        let a₂ := if m.softDelete then mixObj inst.attributes c.new_val
                  else aremove inst.attributes m.idAttribute
        let inst₂ : Instance := ⟨a₂, some c, some c.old_val⟩
        ⟨Outcome.callback none (some inst₂) (some c), inst₂,
         some (buildDestroyQuery m inst.attributes now)⟩

/-- The environment of one Connection#run call: an exception thrown
inside the try block before a handle was taken, a failed pool
acquisition, or an acquired handle `h` together with the outcome of
running the query on it. -/
inductive RunEnv where
  | throwsEarly (msg : String)
  | acquireFails (e : String)
  | proceed (h : Nat) (qres : Except String Cursor)

/-- The pool-visible events of one Connection#run call, in order. -/
inductive RunEvent where
  | acquired (h : Nat)
  | released (h : Nat)
  | cbCalled

/-- How one Connection#run call terminates. -/
inductive RunOutcome where
  | threw (e : JsError)
  | callback (err : Option JsError) (result : Option Cursor)

/-- The observable result of one Connection#run call: the ordered trace
of pool events and callback invocation, and the delivered outcome. -/
structure RunOut where
  trace : List RunEvent
  outcome : RunOutcome

/-- Message of the thrown cb-shape error of run. -/
def runCbMsg : String := "Connection#run(query[, options], cb): cb: Must be a function!"

/-- Message of the missing-query error of run. -/
def runQueryMsg : String := "Connection#run(query[, options], cb): query: Required!"

/-- Message of the options-shape error of run. -/
def runOptsMsg : String := "Connection#run(query[, options], cb): options: Must be an object!"

/-- The `options = options || {}` normalization at the top of run. -/
def runNormOpts (options : Arg) : Arg :=
  if truthyArg options then options else Arg.objArg Ctx.noCtx

/-- Whether a run call shape passes the argument checks of
Connection.prototype.run (src/unnamed/part_000 lines 459-470). -/
def runAccepted (query : Option Query) (options cb : Arg) : Bool :=
  isFnArg (shiftedCb (runNormOpts options) cb)
    && query.isSome && isObjArg (shiftedOpts (runNormOpts options))

/-- Connection.prototype.run, translated from src/unnamed/part_000
lines 454-495.  The waterfall acquires a handle, records it in `conn`,
runs the query on it, and the completion function releases `conn` when
it was ever assigned, before invoking the callback with either the
result or the failure wrapped in UnhandledError.  When acquisition
fails or the try block throws before a handle was taken, `conn` was
never assigned and nothing is released. -/
def connRun (query : Option Query) (options cb : Arg) (env : RunEnv) : RunOut :=
  let opts := runNormOpts options
  if ¬ isFnArg (shiftedCb opts cb) then
    ⟨[], RunOutcome.threw (JsError.illegalArgument runCbMsg)⟩
  else
    match query with
    | none =>
      ⟨[RunEvent.cbCalled],
       RunOutcome.callback (some (JsError.illegalArgument runQueryMsg)) none⟩
    | some _ =>
      if ¬ isObjArg (shiftedOpts opts) then
        ⟨[RunEvent.cbCalled],
         RunOutcome.callback (some (JsError.illegalArgument runOptsMsg)) none⟩
      else
        match env with
        | RunEnv.throwsEarly msg =>
          ⟨[RunEvent.cbCalled],
           RunOutcome.callback (some (JsError.unhandledOfString msg)) none⟩
        | RunEnv.acquireFails e =>
          ⟨[RunEvent.cbCalled],
           RunOutcome.callback (some (JsError.unhandledOfString e)) none⟩
        | RunEnv.proceed h (Except.error e) =>
          ⟨[RunEvent.acquired h, RunEvent.released h, RunEvent.cbCalled],
           RunOutcome.callback (some (JsError.unhandledOfString e)) none⟩
        | RunEnv.proceed h (Except.ok c) =>
          ⟨[RunEvent.acquired h, RunEvent.released h, RunEvent.cbCalled],
           RunOutcome.callback none (some c)⟩

/-- The recognized connection configuration keys, each either absent or
holding an arbitrary runtime value (the options object passed to the
Connection constructor or to configure). -/
structure ConfigOptions where
  port : Option Val
  host : Option Val
  db : Option Val
  authKey : Option Val
  name : Option Val
  max : Option Val
  min : Option Val
  idleTimeoutMillis : Option Val
  log : Option Val
  refreshIdle : Option Val
  reapIntervalMillis : Option Val
  priorityRange : Option Val

/-- An options object with every recognized key absent. -/
def emptyOpts : ConfigOptions :=
  ⟨none, none, none, none, none, none, none, none, none, none, none, none⟩

/-- One `options.key && !utils.isX(options.key)` guard of _configure:
it fires only when the key is present AND its value is truthy AND the
value fails the type test. -/
def badOpt (o : Option Val) (ok : Val → Bool) : Bool :=
  match o with
  | none => false
  | some v => truthyV v && !(ok v)

/-- The type-check chain of _configure (src/unnamed/part_000 lines
137-160), in source order, as condition/message pairs. -/
def configChecks (o : ConfigOptions) : List (Bool × String) :=
  [ (badOpt o.port isNumberV, "options.port: Must be a number!"),
    (badOpt o.db isStringV, "options.db: Must be a string!"),
    (badOpt o.host isStringV, "options.host: Must be a string!"),
    (badOpt o.authKey isStringV, "options.authKey: Must be a string!"),
    (badOpt o.name isStringV, "options.name: Must be a string!"),
    (badOpt o.max isNumberV, "options.max: Must be a number!"),
    (badOpt o.min isNumberV, "options.min: Must be a number!"),
    (badOpt o.idleTimeoutMillis isNumberV, "options.idleTimeoutMillis: Must be a number!"),
    (badOpt o.log (fun v => isBoolV v || isFnV v), "options.log: Must be a boolean or a function!"),
    (badOpt o.refreshIdle isBoolV, "options.refreshIdle: Must be a boolean!"),
    (badOpt o.reapIntervalMillis isNumberV, "options.reapIntervalMillis: Must be a number!"),
    (badOpt o.priorityRange isNumberV, "options.priorityRange: Must be a number!") ]

/-- The first failing type check of _configure, if any. -/
def validateConfig (o : ConfigOptions) : Option String :=
  ((configChecks o).find? (fun p => p.1)).map (fun p => p.2)

/-- How one _configure call delivered its result: a thrown error, the
callback invoked with an error, the callback invoked with success from
inside the old pool's drain, or termination without any callback
invocation. -/
inductive ConfDelivery where
  | threwD (e : JsError)
  | cbError (e : JsError)
  | cbSuccess
  | quiet
deriving BEq, Repr

/-- Whether a delivery invoked the supplied callback at all. -/
def cbInvoked : ConfDelivery → Bool
  | ConfDelivery.cbError _ => true
  | ConfDelivery.cbSuccess => true
  | _ => false

/-- The observable result of one _configure call: the delivery, the
pool in place afterwards (pools are numbered), and whether a new pool
was created. -/
structure ConfResult where
  delivered : ConfDelivery
  pool : Option Nat
  createdNewPool : Bool

/-- _configure, translated from src/unnamed/part_000 lines 126-191,
specialized to an object options argument and a validated callback
chain.  A failing type check (or a truthy non-function cb) is delivered
through the callback when the callback is a function and thrown
otherwise, in both cases before any pool is created or replaced.  On
success a fresh pool replaces the old one; the success callback is
invoked only from inside the drain of the old pool, so when no old pool
existed the callback is never invoked. -/
def configure (oldPool : Option Nat) (o : ConfigOptions) (cb : Arg) : ConfResult :=
  let keyError := validateConfig o
  let error :=
    match keyError with
    | some msg => some (JsError.illegalArgument msg)
    | none =>
      if truthyArg cb && ¬ isFnArg cb then
        some (JsError.illegalArgument "cb: Must be a function!")
      else none
  match error with
  | some e =>
    if isFnArg cb then ⟨ConfDelivery.cbError e, oldPool, false⟩
    else ⟨ConfDelivery.threwD e, oldPool, false⟩
  | none =>
    let fresh := (match oldPool with | some p => p + 1 | none => 1)
    match oldPool with
    | some _ =>
      ⟨(if isFnArg cb then ConfDelivery.cbSuccess else ConfDelivery.quiet),
       some fresh, true⟩
    | none => ⟨ConfDelivery.quiet, some fresh, true⟩

/-- Whether an operation result reported an IllegalArgumentError, either
thrown or through the callback. -/
def yieldsIllegalArgument (r : OpResult) : Bool :=
  match r.outcome with
  | Outcome.threw (JsError.illegalArgument _) => true
  | Outcome.callback (some (JsError.illegalArgument _)) _ _ => true
  | _ => false

theorem accepted_parts {options cb : Arg} (h : accepted options cb = true) :
    isFnArg (shiftedCb options cb) = true
    ∧ isObjArg (shiftedOpts options) = true
    ∧ badContext (shiftedOpts options) = false := by
  simp only [accepted, Bool.and_eq_true, Bool.not_eq_true'] at h
  exact ⟨h.1.1, h.1.2, h.2⟩

theorem aget_aset_self (a : Attrs) (k : String) (v : Val) :
    aget (aset a k v) k = some v := by
  induction a with
  | nil => simp [aget, aset]
  | cons p rest ih =>
    obtain ⟨k₁, v₁⟩ := p
    by_cases h : k₁ == k
    · simp [aset, h, aget]
    · simp only [aset, h, if_false, Bool.false_eq_true, aget]
      simp [h, ih]

theorem aget_aset_ne (a : Attrs) (k k₂ : String) (v : Val) (h : k₂ ≠ k) :
    aget (aset a k v) k₂ = aget a k₂ := by
  have hb : (k == k₂) = false := by
    simp [beq_iff_eq]
    exact fun he => h he.symm
  induction a with
  | nil => simp [aget, aset, hb]
  | cons p rest ih =>
    obtain ⟨k₁, v₁⟩ := p
    by_cases h₁ : k₁ == k
    · have : (k₁ == k₂) = false := by
        have hk : k₁ = k := by simpa [beq_iff_eq] using h₁
        simpa [hk] using hb
      simp [aset, h₁, aget, hb, this]
    · simp [aset, h₁, aget, ih]

theorem aset_of_aget_eq (a : Attrs) (k : String) (v : Val)
    (h : aget a k = some v) : aset a k v = a := by
  induction a with
  | nil => simp [aget] at h
  | cons p rest ih =>
    obtain ⟨k₁, v₁⟩ := p
    by_cases h₁ : k₁ == k
    · have hk : k₁ = k := by simpa [beq_iff_eq] using h₁
      have hv : v₁ = v := by simpa [aget, h₁] using h
      simp [aset, h₁, hk, hv]
    · have h' : aget rest k = some v := by simpa [aget, h₁] using h
      simp [aset, h₁, ih h']

theorem aget_eq_none_of_hasKey_false (a : Attrs) (k : String)
    (h : hasKey a k = false) : aget a k = none := by
  induction a with
  | nil => rfl
  | cons p rest ih =>
    obtain ⟨k₁, v₁⟩ := p
    simp only [hasKey, Bool.or_eq_false_iff] at h
    simp [aget, h.1, ih h.2]

theorem hasKey_false_of_aget_none (a : Attrs) (k : String)
    (h : aget a k = none) : hasKey a k = false := by
  induction a with
  | nil => rfl
  | cons p rest ih =>
    obtain ⟨k₁, v₁⟩ := p
    by_cases h₁ : k₁ == k
    · simp [aget, h₁] at h
    · simp only [aget, h₁, if_false, Bool.false_eq_true] at h
      simp [hasKey, h₁, ih h]

theorem aget_mixObj_of_hasKey_false (s : Attrs) (k : String)
    (h : hasKey s k = false) :
    ∀ t : Attrs, aget (mixObj t s) k = aget t k := by
  induction s with
  | nil => intro t; rfl
  | cons p rest ih =>
    obtain ⟨k₁, v₁⟩ := p
    intro t
    simp only [hasKey, Bool.or_eq_false_iff] at h
    have hne : k ≠ k₁ := by
      intro he
      simp [he, beq_iff_eq] at h
    show aget (mixObj (aset t k₁ _) rest) k = aget t k
    rw [ih h.2, aget_aset_ne _ _ _ _ hne]

theorem wfAttrs_parts {a : Attrs} {k : String} {v : Val}
    (h : wfAttrs ((k, v) :: a) = true) :
    hasKey a k = false ∧ wfAttrs.wfV v = true ∧ wfAttrs a = true := by
  have h' : (!(hasKey a k) && wfAttrs.wfV v && wfAttrs a) = true := h
  simp only [Bool.and_eq_true, Bool.not_eq_true'] at h'
  exact ⟨h'.1.1, h'.1.2, h'.2⟩

theorem wfV_of_aget {s : Attrs} {k : String} {v : Val}
    (hs : wfAttrs s = true) (h : aget s k = some v) : wfAttrs.wfV v = true := by
  induction s with
  | nil => simp [aget] at h
  | cons p rest ih =>
    obtain ⟨k₁, v₁⟩ := p
    obtain ⟨-, hv₁, hrest⟩ := wfAttrs_parts hs
    by_cases h₁ : k₁ == k
    · have : v₁ = v := by simpa [aget, h₁] using h
      exact this ▸ hv₁
    · have h' : aget rest k = some v := by simpa [aget, h₁] using h
      exact ih hrest h'

mutual
theorem mergeVal_self : (v : Val) → wfAttrs.wfV v = true → mixObj.mergeVal v v = v
  | Val.vnull, _ => rfl
  | Val.vbool _, _ => rfl
  | Val.vnum _, _ => rfl
  | Val.vstr _, _ => rfl
  | Val.vtime _, _ => rfl
  | Val.vfn, _ => rfl
  | Val.vobj f, h => by
    have hf : wfAttrs f = true := h
    show Val.vobj (mixObj f f) = Val.vobj f
    rw [mixObj_absorb f f hf (fun _ _ hv => hv)]
termination_by v => sizeOf v

theorem mixObj_absorb : (s t : Attrs) → wfAttrs s = true →
    (∀ k v, aget s k = some v → aget t k = some v) → mixObj t s = t
  | [], _, _, _ => rfl
  | (k₁, v₁) :: rest, t, hs, hagree => by
    obtain ⟨hk, hv₁, hrest⟩ := wfAttrs_parts hs
    have ht : aget t k₁ = some v₁ := hagree k₁ v₁ (by simp [aget])
    simp only [mixObj, ht]
    rw [mergeVal_self v₁ hv₁]
    rw [aset_of_aget_eq t k₁ v₁ ht]
    apply mixObj_absorb rest t hrest
    intro k v hkv
    by_cases he : k = k₁
    · rw [he] at hkv
      rw [aget_eq_none_of_hasKey_false rest k₁ hk] at hkv
      exact Option.noConfusion hkv
    · apply hagree k v
      have : (k₁ == k) = false := by
        simp [beq_iff_eq]
        exact fun h₂ => he h₂.symm
      simpa [aget, this] using hkv
termination_by s => sizeOf s
end

theorem mergeVal_nonobj (u v : Val) (h : isObjV v = false) : mixObj.mergeVal u v = v := by
  cases u <;> cases v <;> first
    | rfl
    | simp [isObjV] at h

theorem aget_mixObj_agree {s : Attrs} {k : String} {v : Val}
    (hs : wfAttrs s = true) (hsk : aget s k = some v) :
    ∀ t : Attrs, aget t k = some v → aget (mixObj t s) k = some v := by
  induction s with
  | nil => simp [aget] at hsk
  | cons p rest ih =>
    obtain ⟨k₁, v₁⟩ := p
    obtain ⟨hk, hv₁, hrest⟩ := wfAttrs_parts hs
    intro t ht
    by_cases h₁ : k₁ == k
    · have hke : k₁ = k := by simpa [beq_iff_eq] using h₁
      subst hke
      have hv : v₁ = v := by simpa [aget] using hsk
      subst hv
      simp only [mixObj, ht]
      rw [mergeVal_self v₁ hv₁]
      rw [aget_mixObj_of_hasKey_false rest k₁ hk, aget_aset_self]
    · have hsk' : aget rest k = some v := by simpa [aget, h₁] using hsk
      have hne : k ≠ k₁ := by
        intro he
        simp [he, beq_iff_eq] at h₁
      simp only [mixObj]
      exact ih hrest hsk' _ (by rw [aget_aset_ne _ _ _ _ hne]; exact ht)

theorem aget_mixObj_nonobj {s : Attrs} {k : String} {v : Val}
    (hs : wfAttrs s = true) (hsk : aget s k = some v)
    (hno : isObjV v = false) :
    ∀ t : Attrs, aget (mixObj t s) k = some v := by
  induction s with
  | nil => simp [aget] at hsk
  | cons p rest ih =>
    obtain ⟨k₁, v₁⟩ := p
    obtain ⟨hk, hv₁, hrest⟩ := wfAttrs_parts hs
    intro t
    by_cases h₁ : k₁ == k
    · have hke : k₁ = k := by simpa [beq_iff_eq] using h₁
      subst hke
      have hv : v₁ = v := by simpa [aget] using hsk
      subst hv
      simp only [mixObj]
      cases hget : aget t k₁ with
      | none =>
        simp only [hget]
        rw [aget_mixObj_of_hasKey_false rest k₁ hk, aget_aset_self]
      | some tv =>
        simp only [hget, mergeVal_nonobj tv v₁ hno]
        rw [aget_mixObj_of_hasKey_false rest k₁ hk, aget_aset_self]
    · have hsk' : aget rest k = some v := by simpa [aget, h₁] using hsk
      simp only [mixObj]
      exact ih hrest hsk' _

/-- Model configuration of the save unit test timestampsIsNew
(src/test/unit/model/prototype/save.test.js): timestamps on, no soft
delete, primary key `id`. -/
def mC1 : ModelCfg := ⟨"post", true, false, "id"⟩

/-- The instance of the save unit test: attributes hold only a name, so
the instance is new; `meta` and `previousAttributes` are unset. -/
def iC1 : Instance := ⟨[("name", Val.vstr "John")], none, none⟩

/-- The write result the mocked engine returns in the save unit test:
zero errors and a new row value echoing the stamped document. -/
def cC1 : Cursor :=
  ⟨0, none,
   [("name", Val.vstr "John"), ("updated", Val.vtime 5),
    ("created", Val.vtime 5), ("deleted", Val.vnull)], []⟩

/-- The attribute mapping after the stamped insert of the save unit
test has been merged back. -/
def aC1 : Attrs :=
  [("name", Val.vstr "John"), ("created", Val.vtime 5),
   ("deleted", Val.vnull), ("updated", Val.vtime 5)]

/-- C1: at the timestampsIsNew save-test input the underlying write
succeeds with a zero error count and the callback is invoked with
(null, instance, meta) where the engine row value has been merged into
the attributes — but the instance's `meta` field is left unset: save.js
never assigns it, although the claim (and the repository's own unit
test, which asserts `instance.meta` equals the cursor) requires `meta`
to be replaced with the raw write result. -/
theorem save_success_leaves_meta_unset :
    (save mC1 iC1 Arg.fnArg Arg.missing 5 (Env.runSucceeds cC1)).outcome
      = Outcome.callback none (some ⟨aC1, none, none⟩) (some cC1)
    ∧ (save mC1 iC1 Arg.fnArg Arg.missing 5 (Env.runSucceeds cC1)).inst.meta
      = none :=
  ⟨rfl, rfl⟩

/-- Model configuration of destroyTest.normal (src/unnamed/part_003):
no timestamps, no soft delete, primary key `id`. -/
def mC3 : ModelCfg := ⟨"post", false, false, "id"⟩

/-- The instance of destroyTest.normal: a name and a numeric primary
key. -/
def iC3 : Instance := ⟨[("name", Val.vstr "John"), ("id", Val.vnum 2)], none, none⟩

/-- The write result of the mocked physical delete in
destroyTest.normal: zero errors and the old row value. -/
def cC3 : Cursor := ⟨0, none, [], [("name", Val.vstr "John"), ("id", Val.vnum 2)]⟩

/-- C3 counterexample: at the destroyTest.normal input the physical
destroy succeeds, but the attribute mapping afterwards is the name
binding alone — the primary key was removed and everything else kept —
not the empty mapping the claim requires.  This matches the
repository's own destroy unit test, which expects exactly this
mapping. -/
theorem destroy_does_not_clear_attributes :
    (destroy mC3 iC3 Arg.fnArg Arg.missing 5 (Env.runSucceeds cC3)).outcome
      = Outcome.callback none
          (some ⟨[("name", Val.vstr "John")], some cC3, some cC3.old_val⟩)
          (some cC3)
    ∧ (destroy mC3 iC3 Arg.fnArg Arg.missing 5 (Env.runSucceeds cC3)).inst.attributes
      = [("name", Val.vstr "John")]
    ∧ [("name", Val.vstr "John")] ≠ ([] : Attrs) :=
  ⟨rfl, rfl, fun h => List.noConfusion h⟩

/-- C3 amended: a successful physical destroy (no softDelete, non-new
instance, zero engine errors) leaves the attribute mapping equal to the
pre-destroy mapping with only the primary-key attribute removed, and
stores the engine's old row value in previousAttributes (at the cited
test input that old row value equals the pre-destroy attributes). -/
theorem destroy_physical_removes_pk (m : ModelCfg) (inst : Instance)
    (options cb : Arg) (now : Int) (c : Cursor)
    (hacc : accepted options cb = true)
    (hnew : isNewAttrs m.idAttribute inst.attributes = false)
    (hsoft : m.softDelete = false)
    (herr : c.errors = 0) :
    (destroy m inst options cb now (Env.runSucceeds c)).inst.attributes
      = aremove inst.attributes m.idAttribute
    ∧ (destroy m inst options cb now (Env.runSucceeds c)).inst.previousAttributes
      = some c.old_val
    ∧ (destroy m inst options cb now (Env.runSucceeds c)).outcome
      = Outcome.callback none
          (some ⟨aremove inst.attributes m.idAttribute, some c, some c.old_val⟩)
          (some c) := by
  obtain ⟨h₁, h₂, h₃⟩ := accepted_parts hacc
  simp [destroy, h₁, h₂, h₃, hnew, hsoft, herr]

/-- C3 amended, witness: the amended statement evaluated at the
destroyTest.normal input. -/
theorem destroy_physical_removes_pk_witness :
    (destroy mC3 iC3 Arg.fnArg Arg.missing 5 (Env.runSucceeds cC3)).inst.attributes
      = aremove iC3.attributes mC3.idAttribute
    ∧ (destroy mC3 iC3 Arg.fnArg Arg.missing 5 (Env.runSucceeds cC3)).inst.previousAttributes
      = some cC3.old_val :=
  ⟨(destroy_physical_removes_pk mC3 iC3 Arg.fnArg Arg.missing 5 cC3
      rfl rfl rfl rfl).1,
   (destroy_physical_removes_pk mC3 iC3 Arg.fnArg Arg.missing 5 cC3
      rfl rfl rfl rfl).2.1⟩

/-- C5: destroy on a new instance succeeds immediately through the
callback with the untouched instance, performs no database interaction
(no query reaches the connection, whatever the environment would have
answered), and leaves the whole instance — attributes included —
unchanged. -/
theorem destroy_new_is_noop (m : ModelCfg) (inst : Instance)
    (options cb : Arg) (now : Int) (env : Env)
    (hacc : accepted options cb = true)
    (hnew : isNewAttrs m.idAttribute inst.attributes = true) :
    destroy m inst options cb now env
      = ⟨Outcome.callback none (some inst) none, inst, none⟩ := by
  obtain ⟨h₁, h₂, h₃⟩ := accepted_parts hacc
  simp [destroy, h₁, h₂, h₃, hnew]

/-- C5 witness: the no-op statement evaluated at the
destroyTest.normalIsNew input (attributes hold only a name, so the
instance is new). -/
theorem destroy_new_is_noop_witness :
    destroy mC3 ⟨[("name", Val.vstr "John")], none, none⟩ Arg.fnArg Arg.missing 5
        (Env.runSucceeds cC3)
      = ⟨Outcome.callback none (some ⟨[("name", Val.vstr "John")], none, none⟩)
           none,
         ⟨[("name", Val.vstr "John")], none, none⟩, none⟩ :=
  destroy_new_is_noop mC3 ⟨[("name", Val.vstr "John")], none, none⟩
    Arg.fnArg Arg.missing 5 (Env.runSucceeds cC3) rfl rfl

theorem doc_buildSaveQuery (m : ModelCfg) (a : Attrs) :
    Query.doc (buildSaveQuery m a) = some a := by
  unfold buildSaveQuery
  split <;> rfl

/-- C2: with timestamps enabled and a write actually attempted, the
document save sends to the engine is the stamped attribute mapping; on
a new instance it carries `created` and `updated` both equal to the
current server time and `deleted` equal to null, and on a non-new
instance it carries `updated` equal to the current server time while
`created` is exactly what the attributes already held. -/
theorem save_timestamp_stamping (m : ModelCfg) (inst : Instance)
    (options cb : Arg) (now : Int) (env : Env)
    (hts : m.timestamps = true)
    (hacc : accepted options cb = true)
    (henv : ∀ msg, env ≠ Env.throws msg) :
    ((save m inst options cb now env).ranQuery.bind Query.doc
        = some (stampForSave m inst.attributes now))
    ∧ (isNewAttrs m.idAttribute inst.attributes = true →
        aget (stampForSave m inst.attributes now) "created" = some (Val.vtime now)
        ∧ aget (stampForSave m inst.attributes now) "updated" = some (Val.vtime now)
        ∧ aget (stampForSave m inst.attributes now) "deleted" = some Val.vnull)
    ∧ (isNewAttrs m.idAttribute inst.attributes = false →
        aget (stampForSave m inst.attributes now) "updated" = some (Val.vtime now)
        ∧ aget (stampForSave m inst.attributes now) "created"
            = aget inst.attributes "created") := by
  obtain ⟨h₁, h₂, h₃⟩ := accepted_parts hacc
  refine ⟨?_, ?_, ?_⟩
  · cases env with
    | throws msg => exact absurd rfl (henv msg)
    | runFails e => simp [save, h₁, h₂, h₃, doc_buildSaveQuery]
    | runSucceeds c =>
      by_cases hce : c.errors = 0 <;>
        simp [save, h₁, h₂, h₃, hce, doc_buildSaveQuery]
  · intro hnew
    simp only [stampForSave, hts, hnew, if_true]
    refine ⟨?_, ?_, ?_⟩
    · rw [aget_aset_ne _ _ _ _ (by decide : "created" ≠ "updated"),
        aget_aset_ne _ _ _ _ (by decide : "created" ≠ "deleted"),
        aget_aset_self]
    · rw [aget_aset_self]
    · rw [aget_aset_ne _ _ _ _ (by decide : "deleted" ≠ "updated"),
        aget_aset_self]
  · intro hnew
    simp only [stampForSave, hts, hnew, if_true, Bool.false_eq_true, if_false]
    refine ⟨?_, ?_⟩
    · rw [aget_aset_self]
    · rw [aget_aset_ne _ _ _ _ (by decide : "created" ≠ "updated")]

/-- C2 witness: the stamping statement evaluated at the
timestampsIsNew save-test input. -/
theorem save_timestamp_stamping_witness :
    ((save mC1 iC1 Arg.fnArg Arg.missing 5 (Env.runSucceeds cC1)).ranQuery.bind
        Query.doc = some (stampForSave mC1 iC1.attributes 5))
    ∧ aget (stampForSave mC1 iC1.attributes 5) "created" = some (Val.vtime 5)
    ∧ aget (stampForSave mC1 iC1.attributes 5) "updated" = some (Val.vtime 5)
    ∧ aget (stampForSave mC1 iC1.attributes 5) "deleted" = some Val.vnull := by
  have h := save_timestamp_stamping mC1 iC1 Arg.fnArg Arg.missing 5
    (Env.runSucceeds cC1) rfl rfl (fun _ hc => Env.noConfusion hc)
  exact ⟨h.1, (h.2.1 rfl).1, (h.2.1 rfl).2.1, (h.2.1 rfl).2.2⟩

/-- C7: with a well-formed call shape every downstream failure of save
is delivered through the callback as a single wrapped error and nothing
is thrown or swallowed: an exception during query construction and a
connection failure arrive as UnhandledError around the original cause,
and a write result with a non-zero error count arrives as UnhandledError
around the write's first reported error (falling back to the fixed
insert-failed text when the engine reported none). -/
theorem save_wraps_every_failure (m : ModelCfg) (inst : Instance)
    (options cb : Arg) (now : Int)
    (hacc : accepted options cb = true) :
    (∀ msg, (save m inst options cb now (Env.throws msg)).outcome
      = Outcome.callback (some (JsError.unhandledOfString msg)) none none)
    ∧ (∀ e, (save m inst options cb now (Env.runFails e)).outcome
      = Outcome.callback (some (JsError.unhandledOfError e)) none none)
    ∧ (∀ c, c.errors ≠ 0 →
        (save m inst options cb now (Env.runSucceeds c)).outcome
          = Outcome.callback
              (some (JsError.unhandledOfString (jsOr c.first_error "insert failed")))
              none none) := by
  obtain ⟨h₁, h₂, h₃⟩ := accepted_parts hacc
  refine ⟨?_, ?_, ?_⟩
  · intro msg
    simp [save, h₁, h₂, h₃]
  · intro e
    simp [save, h₁, h₂, h₃]
  · intro c hce
    simp [save, h₁, h₂, h₃, hce]

/-- C7 witness: the wrapping statement evaluated at a write result with
one engine error whose first reported error is a concrete text. -/
theorem save_wraps_every_failure_witness :
    (save mC1 iC1 Arg.fnArg Arg.missing 5
        (Env.runSucceeds ⟨1, some "boom", [], []⟩)).outcome
      = Outcome.callback (some (JsError.unhandledOfString "boom")) none none := by
  have h := save_wraps_every_failure mC1 iC1 Arg.fnArg Arg.missing 5 rfl
  exact h.2.2 ⟨1, some "boom", [], []⟩ (by decide)

/-- C8: for save and destroy alike, an effective callback that is not a
function makes the call throw an IllegalArgumentError synchronously; a
function callback with a present non-object options argument makes the
callback receive an IllegalArgumentError; and in all cases a present
non-object options argument yields an IllegalArgumentError by one of
the two routes — with no query ever reaching the connection. -/
theorem save_destroy_argument_checks (m : ModelCfg) (inst : Instance)
    (options cb : Arg) (now : Int) (env : Env) :
    (isFnArg (shiftedCb options cb) = false →
      (save m inst options cb now env).outcome
          = Outcome.threw (JsError.illegalArgument saveCbMsg)
      ∧ (save m inst options cb now env).ranQuery = none
      ∧ (destroy m inst options cb now env).outcome
          = Outcome.threw (JsError.illegalArgument destroyCbMsg)
      ∧ (destroy m inst options cb now env).ranQuery = none)
    ∧ (isFnArg (shiftedCb options cb) = true →
        isObjArg (shiftedOpts options) = false →
      (save m inst options cb now env).outcome
          = Outcome.callback (some (JsError.illegalArgument saveOptsMsg)) none none
      ∧ (save m inst options cb now env).ranQuery = none
      ∧ (destroy m inst options cb now env).outcome
          = Outcome.callback (some (JsError.illegalArgument destroyOptsMsg)) none none
      ∧ (destroy m inst options cb now env).ranQuery = none)
    ∧ (isObjArg (shiftedOpts options) = false →
      yieldsIllegalArgument (save m inst options cb now env) = true
      ∧ (save m inst options cb now env).ranQuery = none
      ∧ yieldsIllegalArgument (destroy m inst options cb now env) = true
      ∧ (destroy m inst options cb now env).ranQuery = none) := by
  refine ⟨?_, ?_, ?_⟩
  · intro hcb
    simp [save, destroy, hcb]
  · intro hcb hobj
    simp [save, destroy, hcb, hobj]
  · intro hobj
    cases hcb : isFnArg (shiftedCb options cb) with
    | false => simp [yieldsIllegalArgument, save, destroy, hcb]
    | true => simp [yieldsIllegalArgument, save, destroy, hcb, hobj]

/-- C8 witness: the argument-check statement evaluated at a call
passing a number where the options object belongs and a function
callback — the callback route reports the IllegalArgumentError and no
query is issued. -/
theorem save_destroy_argument_checks_witness :
    (save mC1 iC1 (Arg.otherArg true "number") Arg.fnArg 5
        (Env.runSucceeds cC1)).outcome
      = Outcome.callback (some (JsError.illegalArgument saveOptsMsg)) none none
    ∧ (save mC1 iC1 (Arg.otherArg true "number") Arg.fnArg 5
        (Env.runSucceeds cC1)).ranQuery = none
    ∧ yieldsIllegalArgument (destroy mC1 iC1 (Arg.otherArg true "number")
        Arg.fnArg 5 (Env.runSucceeds cC1)) = true := by
  have h := save_destroy_argument_checks mC1 iC1 (Arg.otherArg true "number")
    Arg.fnArg 5 (Env.runSucceeds cC1)
  exact ⟨(h.2.1 rfl rfl).1, (h.2.1 rfl rfl).2.1, (h.2.2 rfl).2.2.1⟩

/-- C4: a successful destroy on a non-new instance of a soft-delete
model issues no physical delete: the query sent to the connection is an
update-by-primary-key whose document sets `deleted` to the current
server time (and `updated` too when timestamps are enabled); afterwards
`deleted` in the attributes is the server time — a non-null value —
every field other than `deleted`/`updated` is unchanged whenever the
engine's returned row agrees with the instance outside the update
document, and previousAttributes holds the engine's old row value, the
pre-destroy state of the row. -/
theorem destroy_soft_delete_semantics (m : ModelCfg) (inst : Instance)
    (options cb : Arg) (now : Int) (c : Cursor)
    (hacc : accepted options cb = true)
    (hnew : isNewAttrs m.idAttribute inst.attributes = false)
    (hsoft : m.softDelete = true)
    (herr : c.errors = 0)
    (hwf : wfAttrs c.new_val = true)
    (hdel : aget c.new_val "deleted" = some (Val.vtime now))
    (hrest : ∀ k, k ≠ "deleted" → k ≠ "updated" →
        aget c.new_val k = aget inst.attributes k) :
    (destroy m inst options cb now (Env.runSucceeds c)).ranQuery
      = some (Query.update m.tableName (aget inst.attributes m.idAttribute)
          (destroyUpdateDoc m now))
    ∧ aget (destroyUpdateDoc m now) "deleted" = some (Val.vtime now)
    ∧ (m.timestamps = true →
        aget (destroyUpdateDoc m now) "updated" = some (Val.vtime now))
    ∧ aget (destroy m inst options cb now
        (Env.runSucceeds c)).inst.attributes "deleted" = some (Val.vtime now)
    ∧ Val.vtime now ≠ Val.vnull
    ∧ (∀ k, k ≠ "deleted" → k ≠ "updated" →
        aget (destroy m inst options cb now (Env.runSucceeds c)).inst.attributes k
          = aget inst.attributes k)
    ∧ (destroy m inst options cb now (Env.runSucceeds c)).inst.previousAttributes
      = some c.old_val := by
  obtain ⟨h₁, h₂, h₃⟩ := accepted_parts hacc
  have hattrs : (destroy m inst options cb now (Env.runSucceeds c)).inst.attributes
      = mixObj inst.attributes c.new_val := by
    simp [destroy, h₁, h₂, h₃, hnew, hsoft, herr]
  refine ⟨?_, ?_, ?_, ?_, ?_, ?_, ?_⟩
  · simp [destroy, h₁, h₂, h₃, hnew, herr, buildDestroyQuery, hsoft]
  · cases htt : m.timestamps with
    | false => simp [destroyUpdateDoc, htt, aget]
    | true =>
      simp only [destroyUpdateDoc, htt, if_true]
      rw [show aset [("deleted", Val.vtime now)] "updated" (Val.vtime now)
            = [("deleted", Val.vtime now), ("updated", Val.vtime now)] from rfl]
      simp [aget]
  · intro htt
    simp only [destroyUpdateDoc, htt, if_true]
    rw [aget_aset_self]
  · rw [hattrs]
    exact aget_mixObj_nonobj hwf hdel rfl inst.attributes
  · exact fun h => Val.noConfusion h
  · intro k hk₁ hk₂
    rw [hattrs]
    have heq := hrest k hk₁ hk₂
    cases hnv : aget c.new_val k with
    | none =>
      have hhk : hasKey c.new_val k = false := hasKey_false_of_aget_none _ _ hnv
      rw [aget_mixObj_of_hasKey_false _ _ hhk]
    | some v =>
      have hins : aget inst.attributes k = some v := by rw [← heq, hnv]
      rw [hins]
      exact aget_mixObj_agree hwf hnv inst.attributes hins
  · simp [destroy, h₁, h₂, h₃, hnew, hsoft, herr]

/-- Model configuration of destroyTest.softDelete: soft delete on,
timestamps off. -/
def mC4 : ModelCfg := ⟨"post", false, true, "id"⟩

/-- The instance of destroyTest.softDelete: a name and a numeric
primary key. -/
def iC4 : Instance := ⟨[("name", Val.vstr "John"), ("id", Val.vnum 2)], none, none⟩

/-- The write result of the mocked soft delete in
destroyTest.softDelete: zero errors, the old row value, and the new
row value with `deleted` set to the server time. -/
def cC4 : Cursor :=
  ⟨0, none,
   [("name", Val.vstr "John"), ("id", Val.vnum 2), ("deleted", Val.vtime 5)],
   [("name", Val.vstr "John"), ("id", Val.vnum 2)]⟩

/-- C4 witness: the soft-delete statement evaluated at the
destroyTest.softDelete input — `deleted` becomes the server time, the
name field is untouched, and previousAttributes is the old row
value. -/
theorem destroy_soft_delete_semantics_witness :
    aget (destroy mC4 iC4 Arg.fnArg Arg.missing 5
        (Env.runSucceeds cC4)).inst.attributes "deleted" = some (Val.vtime 5)
    ∧ aget (destroy mC4 iC4 Arg.fnArg Arg.missing 5
        (Env.runSucceeds cC4)).inst.attributes "name" = aget iC4.attributes "name"
    ∧ (destroy mC4 iC4 Arg.fnArg Arg.missing 5
        (Env.runSucceeds cC4)).inst.previousAttributes = some cC4.old_val := by
  have hrest : ∀ k, k ≠ "deleted" → k ≠ "updated" →
      aget cC4.new_val k = aget iC4.attributes k := by
    intro k hk₁ _
    have hd : ("deleted" == k) = false := by
      rw [beq_eq_false_iff_ne]
      exact fun he => hk₁ he.symm
    simp only [cC4, iC4, aget, hd, Bool.false_eq_true, if_false]
  have h := destroy_soft_delete_semantics mC4 iC4 Arg.fnArg Arg.missing 5 cC4
    rfl rfl rfl rfl rfl rfl hrest
  exact ⟨h.2.2.2.1, h.2.2.2.2.2.1 "name" (by decide) (by decide),
    h.2.2.2.2.2.2⟩

/-- C6: for a well-formed run call, whenever a handle was acquired it
is released back to the pool before the completion callback is invoked
— the event trace is acquire, release, callback — whether the query
failed or succeeded; and when acquisition itself failed or the try
block threw before a handle was taken, the callback fires with no
acquire and no release in the trace, so no handle is held. -/
theorem run_releases_before_callback (q : Query) (options cb : Arg)
    (hacc : runAccepted (some q) options cb = true) :
    (∀ h r, (connRun (some q) options cb (RunEnv.proceed h r)).trace
      = [RunEvent.acquired h, RunEvent.released h, RunEvent.cbCalled])
    ∧ (∀ e, (connRun (some q) options cb (RunEnv.acquireFails e)).trace
      = [RunEvent.cbCalled])
    ∧ (∀ msg, (connRun (some q) options cb (RunEnv.throwsEarly msg)).trace
      = [RunEvent.cbCalled]) := by
  have hparts : isFnArg (shiftedCb (runNormOpts options) cb) = true
      ∧ isObjArg (shiftedOpts (runNormOpts options)) = true := by
    simp only [runAccepted, Bool.and_eq_true] at hacc
    exact ⟨hacc.1.1, hacc.2⟩
  refine ⟨?_, ?_, ?_⟩
  · intro h r
    cases r <;> simp [connRun, hparts.1, hparts.2]
  · intro e
    simp [connRun, hparts.1, hparts.2]
  · intro msg
    simp [connRun, hparts.1, hparts.2]

/-- C6 witness: the release-ordering statement evaluated at a concrete
query, for a failing run on handle 7 and for a failed acquisition. -/
theorem run_releases_before_callback_witness :
    (connRun (some (Query.delete "post" none)) Arg.missing Arg.fnArg
        (RunEnv.proceed 7 (Except.error "socket closed"))).trace
      = [RunEvent.acquired 7, RunEvent.released 7, RunEvent.cbCalled]
    ∧ (connRun (some (Query.delete "post" none)) Arg.missing Arg.fnArg
        (RunEnv.acquireFails "pool exhausted")).trace
      = [RunEvent.cbCalled] := by
  have h := run_releases_before_callback (Query.delete "post" none)
    Arg.missing Arg.fnArg rfl
  exact ⟨h.1 7 (Except.error "socket closed"), h.2.1 "pool exhausted"⟩

/-- An options object whose `port` key holds a falsy value of the wrong
type: the empty string. -/
def oFalsyBad : ConfigOptions := { emptyOpts with port := some (Val.vstr "") }

/-- C9 counterexample: `port` is a recognized key and here it is
present holding a string — a value of the wrong type — yet the
configure call does not fail: no check fires, a new pool is created
replacing pool 3, and the success delivery runs.  The truthiness guard
`options.port && ...` of the source skips type-checking every falsy
value, so a present wrong-typed falsy value passes validation. -/
theorem configure_accepts_falsy_wrong_type :
    oFalsyBad.port = some (Val.vstr "")
    ∧ isNumberV (Val.vstr "") = false
    ∧ validateConfig oFalsyBad = none
    ∧ (configure (some 3) oFalsyBad Arg.fnArg).createdNewPool = true
    ∧ (configure (some 3) oFalsyBad Arg.fnArg).delivered
        = ConfDelivery.cbSuccess :=
  ⟨rfl, rfl, rfl, rfl, rfl⟩

/-- C9 amended: whenever some recognized key holds a truthy value of
the wrong type, the configure call fails with an IllegalArgumentError —
delivered through the callback when the callback is a function, else
thrown — and the pool in place is untouched, with no new pool created;
falsy values of recognized keys skip type-checking entirely. -/
theorem configure_truthy_wrong_type_fails (oldPool : Option Nat)
    (o : ConfigOptions) (cb : Arg)
    (hbad : (configChecks o).any (fun p => p.1) = true) :
    (∃ msg, validateConfig o = some msg
      ∧ (isFnArg cb = true →
          (configure oldPool o cb).delivered
            = ConfDelivery.cbError (JsError.illegalArgument msg))
      ∧ (isFnArg cb = false →
          (configure oldPool o cb).delivered
            = ConfDelivery.threwD (JsError.illegalArgument msg)))
    ∧ (configure oldPool o cb).pool = oldPool
    ∧ (configure oldPool o cb).createdNewPool = false := by
  have hsome : ((configChecks o).find? (fun p => p.1)).isSome := by
    rw [List.find?_isSome]
    rw [List.any_eq_true] at hbad
    exact hbad
  obtain ⟨pr, hpr⟩ := Option.isSome_iff_exists.mp hsome
  have hval : validateConfig o = some pr.2 := by
    simp [validateConfig, hpr]
  refine ⟨⟨pr.2, hval, ?_, ?_⟩, ?_, ?_⟩ <;>
    cases hcb : isFnArg cb <;>
      simp [configure, hval, hcb]

/-- C9 amended, witness: a truthy string in `port` makes configure on
pool 3 report the port type error through the callback and leave pool 3
in place. -/
theorem configure_truthy_wrong_type_fails_witness :
    (configure (some 3) { emptyOpts with port := some (Val.vstr "abc") }
        Arg.fnArg).pool = some 3
    ∧ (configure (some 3) { emptyOpts with port := some (Val.vstr "abc") }
        Arg.fnArg).createdNewPool = false := by
  have h := configure_truthy_wrong_type_fails (some 3)
    { emptyOpts with port := some (Val.vstr "abc") } Arg.fnArg rfl
  exact ⟨h.2.1, h.2.2⟩

/-- C10: a first configuration — no pool existed beforehand — that
passes validation and carries a function callback creates the new pool
but never invokes the callback: the success callback only fires inside
the drain of an old pool, and there is none. -/
theorem configure_first_success_never_calls_back (o : ConfigOptions)
    (hok : validateConfig o = none) :
    (configure none o Arg.fnArg).delivered = ConfDelivery.quiet
    ∧ cbInvoked (configure none o Arg.fnArg).delivered = false
    ∧ (configure none o Arg.fnArg).pool = some 1
    ∧ (configure none o Arg.fnArg).createdNewPool = true := by
  simp [configure, hok, cbInvoked, truthyArg, isFnArg]

/-- C10 witness: the first-configuration statement evaluated at an
options object with every key absent. -/
theorem configure_first_success_never_calls_back_witness :
    (configure none emptyOpts Arg.fnArg).delivered = ConfDelivery.quiet
    ∧ cbInvoked (configure none emptyOpts Arg.fnArg).delivered = false :=
  ⟨(configure_first_success_never_calls_back emptyOpts rfl).1,
   (configure_first_success_never_calls_back emptyOpts rfl).2.1⟩

end Reheat
